import Mathlib

/-!
Verification of the pH-logger ingestion/aggregation core (src/main.py).

The embedding below is a shallow model of the Python source:

* Serial lines are lists of characters; the regular expression
  search for the pattern (\d+\.\d+)pH used in SerialReader.run (line 32)
  and AppWindow.process_data (line 247) is modelled by reSearchPH.
  For this particular pattern, Python's leftmost-match backtracking
  semantics coincide with: scan positions left to right; at each position
  take the maximal digit run, require a dot, take the maximal digit run,
  require the literal characters p and H.
* Python floats are modelled as rationals; float(<digits>.<digits>)
  becomes the exact decimal value parseDec.
* The GUI state that the aggregation logic touches (console text,
  the pandas DataFrame self.data, self.start_time, the file system,
  the created SerialReader threads and the self.serial_thread reference)
  is an explicit AppState record.  The file system maps a path string to
  an optional CSV file content; a CSV file content is a list of lines,
  each either the header line or a data row.
* Python exceptions are modelled by returning the state reached at the
  point of the raise (attribute mutations before a raise persist in
  Python) together with an optional PyErr.  Note that process_data as
  written ends with the expression self.update_plot_limits^() (line 268),
  which in Python XORs a bound method with the empty tuple and raises
  TypeError; the model reproduces this.
* Environment inputs (wall-clock time, QDateTime string, the text of the
  directory/filename line edits, success of a file write) are passed as
  explicit parameters.
-/

namespace PhLogger

/-- Result of matching the anchored pattern \d+\.\d+pH at the head of the
character list: the two digit groups of the parenthesised capture. -/
def matchPHAt (s : List Char) : Option (List Char × List Char) :=
  let p1 := s.span Char.isDigit
  if p1.1.isEmpty then none else
  match p1.2 with
  | '.' :: r2 =>
    let p2 := r2.span Char.isDigit
    if p2.1.isEmpty then none else
    match p2.2 with
    | 'p' :: 'H' :: _ => some (p1.1, p2.1)
    | _ => none
  | _ => none

/-- Python re.search(r'(\d+\.\d+)pH', s): leftmost match, returning the
digit groups of the capture (\d+\.\d+). -/
def reSearchPH : List Char → Option (List Char × List Char)
  | [] => none
  | c :: rest =>
    match matchPHAt (c :: rest) with
    | some g => some g
    | none => reSearchPH rest

/-- Numeric value of a digit string, as Python int(ds). -/
def natOfDigits (ds : List Char) : Nat :=
  ds.foldl (fun a c => 10 * a + (c.toNat - '0'.toNat)) 0

/-- Python float("<d1>.<d2>"), modelled exactly as a rational. -/
def parseDec (d1 d2 : List Char) : ℚ :=
  (natOfDigits d1 : ℚ) + (natOfDigits d2 : ℚ) / 10 ^ d2.length

/-- One row of the in-memory pandas DataFrame self.data
(columns Timestamp, Elapsed Time (min), pH); see main.py line 250. -/
structure Row where
  timestamp : String
  elapsed : ℚ
  ph : ℚ
deriving DecidableEq, Repr

/-- One line of a CSV file: the header line written by to_csv with
header=True, or a data row. -/
inductive CsvLine where
  | header : CsvLine
  | row : Row → CsvLine
deriving DecidableEq, Repr

def CsvLine.isHeader : CsvLine → Bool
  | .header => true
  | .row _ => false

/-- The file system: a path string maps to the content of the file at
that path, if it exists (os.path.isfile). -/
def FS : Type := String → Option (List CsvLine)

def fsWrite (fs : FS) (p : String) (c : List CsvLine) : FS :=
  fun q => if q = p then some c else fs q

/-- One SerialReader thread as created by start_reading: its port and
its cooperative running flag (main.py lines 19-24, 43-44). -/
structure Worker where
  port : String
  running : Bool
deriving DecidableEq, Repr

/-- The mutable state of AppWindow that the ingestion/aggregation logic
reads and writes.  workers lists every SerialReader ever created and
started, in creation order; serialThread is the index of the one
currently referenced by self.serial_thread. -/
structure AppState where
  console : List (List Char)
  data : List Row
  startTime : Option ℚ
  fs : FS
  workers : List Worker
  serialThread : Option Nat

def initState : AppState :=
  { console := []
    data := []
    startTime := none
    fs := fun _ => none
    workers := []
    serialThread := none }

/-- Python exceptions raised by the modelled code paths. -/
inductive PyErr where
  | attributeError : PyErr
  | oSError : PyErr
  | typeError : PyErr
deriving DecidableEq, Repr

/-- The CSV target path f"{output_directory}/{filename}.csv"
(main.py line 257). -/
def csvPath (dir fname : String) : String :=
  dir ++ "/" ++ fname ++ ".csv"

/-- SerialReader.run, body of one loop iteration on a decoded line
(main.py lines 31-38): emits (data, elapsed_time) when the regex
matches, nothing otherwise. -/
def workerStep (t0 : ℚ) (line : List Char) (t : ℚ) : Option (List Char × ℚ) :=
  match reSearchPH line with
  | some _ => some (line, (t - t0) / 60)
  | none => none

/-- AppWindow.process_data (main.py lines 244-268).  Arguments beyond the
state are the two signal payloads (data, elapsed_time), then the
environment: the QDateTime string, the directory and filename line-edit
texts, and whether a file write performed now succeeds.  Returns the
state reached when the call ends together with the exception it raises,
if any.  Every path that reaches line 268 raises TypeError because of
the expression self.update_plot_limits^(). -/
def process_data (st : AppState) (line : List Char) (elapsed : ℚ)
    (now : String) (dir fname : String) (writeOk : Bool) :
    AppState × Option PyErr :=
  let st1 : AppState := { st with console := st.console ++ [line] }
  match reSearchPH line with
  | none => (st1, some PyErr.attributeError)
  | some g =>
    let new_row : Row := { timestamp := now, elapsed := elapsed, ph := parseDec g.1 g.2 }
    let st2 : AppState := { st1 with data := st1.data ++ [new_row] }
    if dir ≠ "" ∧ fname ≠ "" then
      match st2.fs (csvPath dir fname) with
      | none =>
        if writeOk then
          let fs2 := fsWrite st2.fs (csvPath dir fname) (CsvLine.header :: st2.data.map CsvLine.row)
          ({ st2 with fs := fs2 }, some PyErr.typeError)
        else (st2, some PyErr.oSError)
      | some content =>
        if writeOk then
          let fs2 := fsWrite st2.fs (csvPath dir fname) (content ++ [CsvLine.row new_row])
          ({ st2 with fs := fs2 }, some PyErr.typeError)
        else (st2, some PyErr.oSError)
    else (st2, some PyErr.typeError)

/-- SerialReader.stop on the worker at index i of the list
(main.py lines 43-44): clears its running flag. -/
def stopWorker (ws : List Worker) (i : Nat) : List Worker :=
  match ws.get? i with
  | some w => ws.set i { w with running := false }
  | none => ws

/-- AppWindow.stop_reading (main.py lines 227-230): if a thread is
referenced, signal it to stop (and wait for it). -/
def stop_reading (st : AppState) : AppState :=
  match st.serialThread with
  | none => st
  | some i => { st with workers := stopWorker st.workers i }

/-- AppWindow.start_reading (main.py lines 213-221): with a selected port
and baudrate, fix start_time on first start, then create, connect and
start a fresh SerialReader, overwriting the self.serial_thread
reference.  The previously referenced worker is not stopped. -/
def start_reading (st : AppState) (port baud : String) (now : ℚ) : AppState :=
  if port ≠ "" ∧ baud ≠ "" then
    { st with
      startTime := match st.startTime with
        | none => some now
        | some s => some s
      workers := st.workers ++ [{ port := port, running := true }]
      serialThread := some st.workers.length }
  else st

/-- AppWindow.reset (main.py lines 232-242): stop reading, clear the
DataFrame, clear start_time, clear the console (the plot-only effects
have no modelled state).  No file-system operation occurs. -/
def reset (st : AppState) : AppState :=
  let st1 := stop_reading st
  { st1 with data := [], startTime := none, console := [] }

/-- Control commands of the start/stop/reset surface. -/
inductive Op where
  | start : String → String → ℚ → Op
  | stop : Op
  | reset : Op

def step (st : AppState) : Op → AppState
  | .start port baud now => start_reading st port baud now
  | .stop => stop_reading st
  | .reset => reset st

def runOps (st : AppState) (ops : List Op) : AppState :=
  ops.foldl step st

/-- Number of workers whose running flag is still set. -/
def activeWorkers (st : AppState) : Nat :=
  (st.workers.filter (fun w => w.running)).length

/-- Sequential processing of a list of sample events
(line, elapsed, QDateTime string) through process_data with a fixed
binding and successful writes; in Python the mutations of self persist
even though each call ends by raising, so the next event starts from the
state the previous call reached. -/
def processSeq (dir fname : String) (st : AppState)
    (events : List (List Char × ℚ × String)) : AppState :=
  events.foldl (fun s e => (process_data s e.1 e.2.1 e.2.2 dir fname true).1) st

/-- C5: a start command issued while a worker is already running creates a
second concurrently active worker on the same port: after two starts the
state holds two running workers, and a subsequent stop clears only the
most recently created one, the first keeps running. -/
theorem c5_double_start_two_active_workers :
    activeWorkers (runOps initState [Op.start "COM3" "1200" 0, Op.start "COM3" "1200" 5]) = 2
    ∧ (runOps initState [Op.start "COM3" "1200" 0, Op.start "COM3" "1200" 5]).workers.map
        Worker.port = ["COM3", "COM3"]
    ∧ (stop_reading (runOps initState [Op.start "COM3" "1200" 0, Op.start "COM3" "1200" 5])).workers.map
        Worker.running = [true, false] := by
  refine ⟨?_, ?_, ?_⟩ <;> rfl

/-- C6: with a selected port and baudrate, start fixes the session start
time only when none exists yet; a start while a start time exists reuses
it unchanged (whatever the guard decides); stop and sample processing
never change it; only reset clears it. -/
theorem c6_started_at (st : AppState) :
    (∀ p b now, p ≠ "" → b ≠ "" → st.startTime = none →
      (step st (Op.start p b now)).startTime = some now)
    ∧ (∀ p b now s, st.startTime = some s →
      (step st (Op.start p b now)).startTime = some s)
    ∧ (step st Op.stop).startTime = st.startTime
    ∧ (step st Op.reset).startTime = none
    ∧ (∀ line e now dir fname w,
      ((process_data st line e now dir fname w).1).startTime = st.startTime) := by
  refine ⟨?_, ?_, ?_, rfl, ?_⟩
  · intro p b now hp hb hnone
    simp only [step, start_reading, if_pos (And.intro hp hb), hnone]
  · intro p b now s hs
    simp only [step, start_reading]
    split
    · simp [hs]
    · exact hs
  · simp only [step, stop_reading]
    split <;> rfl
  · intro line e now dir fname w
    simp only [process_data]
    split
    · rfl
    · split
      · split <;> split <;> rfl
      · rfl

/-- Closed instance of c6_started_at: a first start at time 7 sets the
start time to 7; a start while the start time is 3 keeps it at 3. -/
theorem c6_started_at_witness :
    (step initState (Op.start "COM3" "1200" 7)).startTime = some 7
    ∧ (step { initState with startTime := some 3 } (Op.start "COM3" "1200" 7)).startTime = some 3 := by
  constructor
  · exact (c6_started_at initState).1 "COM3" "1200" 7 (by decide) (by decide) rfl
  · exact (c6_started_at { initState with startTime := some 3 }).2.1 "COM3" "1200" 7 3 rfl

/-- C7: reset empties the in-memory series, clears the session start
time, and leaves every file of the file system exactly as it was. -/
theorem c7_reset_frame (st : AppState) :
    (step st Op.reset).data = [] ∧ (step st Op.reset).startTime = none
    ∧ ∀ p, (step st Op.reset).fs p = st.fs p := by
  refine ⟨rfl, rfl, fun p => ?_⟩
  simp only [step, reset, stop_reading]
  split <;> rfl

/-- C9: a stop command changes no sample data, console text, file or
start time; its only effect is clearing the running flag of the worker
currently referenced by serial_thread. -/
theorem c9_stop_preserves_samples (st : AppState) :
    (step st Op.stop).data = st.data
    ∧ (step st Op.stop).console = st.console
    ∧ (∀ p, (step st Op.stop).fs p = st.fs p)
    ∧ (step st Op.stop).startTime = st.startTime
    ∧ (∀ i w, st.serialThread = some i → st.workers.get? i = some w →
      (step st Op.stop).workers.get? i = some { w with running := false }) := by
  refine ⟨?_, ?_, fun p => ?_, ?_, fun i w hi hw => ?_⟩
  · simp only [step, stop_reading]; split <;> rfl
  · simp only [step, stop_reading]; split <;> rfl
  · simp only [step, stop_reading]; split <;> rfl
  · simp only [step, stop_reading]; split <;> rfl
  · simp only [step, stop_reading, hi, stopWorker, hw]
    rw [List.get?_set_eq, hw]
    rfl

/-- Closed instance of c9_stop_preserves_samples: stopping with one
running worker referenced keeps the single accumulated sample and turns
the worker's running flag off. -/
theorem c9_stop_preserves_samples_witness :
    (step { initState with
        workers := [{ port := "COM3", running := true }],
        serialThread := some 0,
        data := [{ timestamp := "t", elapsed := 0, ph := 7 }] } Op.stop).data
      = [{ timestamp := "t", elapsed := 0, ph := 7 }]
    ∧ (step { initState with
        workers := [{ port := "COM3", running := true }],
        serialThread := some 0,
        data := [{ timestamp := "t", elapsed := 0, ph := 7 }] } Op.stop).workers.get? 0
      = some { port := "COM3", running := false } := by
  constructor
  · exact (c9_stop_preserves_samples _).1
  · exact (c9_stop_preserves_samples _).2.2.2.2 0 { port := "COM3", running := true } rfl rfl

/-- C10: with a configured binding the CSV target path is exactly the
concatenation dir plus slash plus filename plus the suffix .csv (so a
filename already ending in .csv becomes a .csv.csv file), and sample
processing touches no other path of the file system. -/
theorem c10_csv_target_path (dir fname : String) (hd : dir ≠ "") (hf : fname ≠ "") :
    csvPath dir fname = dir ++ "/" ++ fname ++ ".csv"
    ∧ csvPath dir (fname ++ ".csv") = dir ++ "/" ++ fname ++ (".csv" ++ ".csv")
    ∧ (∀ st line e now w p, p ≠ csvPath dir fname →
      ((process_data st line e now dir fname w).1).fs p = st.fs p) := by
  refine ⟨rfl, ?_, fun st line e now w p hp => ?_⟩
  · simp only [csvPath, String.append_assoc]
  · simp only [process_data]
    split
    · rfl
    · split
      · split
        · split
          · simp only [fsWrite, if_neg hp]
          · rfl
        · split
          · simp only [fsWrite, if_neg hp]
          · rfl
      · rfl

/-- Closed instance of c10_csv_target_path: directory out and filename
run.csv target the file out/run.csv.csv. -/
theorem c10_csv_target_path_witness :
    csvPath "out" ("run" ++ ".csv") = "out" ++ "/" ++ "run" ++ (".csv" ++ ".csv") := by
  exact (c10_csv_target_path "out" "run" (by decide) (by decide)).2.1

/-- C1: evaluating the error path at a typical failure description.  The
handler first appends the raw error text to the console (so the text is
shown), but then re-runs the pH regex on the error string and calls
group(1) on the None result, raising AttributeError out of the slot: the
error event is not handled without an unhandled exception. -/
theorem c1_error_event_raises_attribute_error :
    (process_data initState (String.toList "Error: could not open port COM3") 0
      "t" "out" "run" true).2 = some PyErr.attributeError
    ∧ (process_data initState (String.toList "Error: could not open port COM3") 0
      "t" "out" "run" true).1.console = [String.toList "Error: could not open port COM3"]
    ∧ reSearchPH (String.toList "Error: could not open port COM3") = none := by
  refine ⟨rfl, rfl, rfl⟩

/-- C4: evaluating a sample whose CSV write fails.  The call ends with
the OSError propagating (there is no try/except around to_csv), the
console gains only the raw data line and no failure message, the file
system is untouched, yet the in-memory series does keep the appended
sample. -/
theorem c4_write_failure_eval :
    (process_data initState (String.toList "7.00pH") 0 "t" "out" "run" false).2
      = some PyErr.oSError
    ∧ (process_data initState (String.toList "7.00pH") 0 "t" "out" "run" false).1.data
      = [{ timestamp := "t", elapsed := 0, ph := parseDec ['7'] ['0', '0'] }]
    ∧ parseDec ['7'] ['0', '0'] = 7
    ∧ (process_data initState (String.toList "7.00pH") 0 "t" "out" "run" false).1.console
      = [String.toList "7.00pH"]
    ∧ (∀ p, (process_data initState (String.toList "7.00pH") 0 "t" "out" "run" false).1.fs p
      = none) := by
  have hn1 : natOfDigits ['7'] = 7 := rfl
  have hn2 : natOfDigits ['0', '0'] = 0 := rfl
  refine ⟨rfl, rfl, ?_, rfl, fun p => rfl⟩
  rw [parseDec, hn1, hn2]
  norm_num

/-- C8: evaluating a sample that arrives with an empty output directory.
Persistence is skipped (no file is created) and the sample is appended
to the in-memory series, but the call still raises: every successful
parse reaches line 268, whose expression update_plot_limits^() XORs a
bound method with the empty tuple and raises TypeError. -/
theorem c8_unconfigured_binding_eval :
    (process_data initState (String.toList "6.90pH") 0 "t" "" "run" true).1.data
      = [{ timestamp := "t", elapsed := 0, ph := parseDec ['6'] ['9', '0'] }]
    ∧ parseDec ['6'] ['9', '0'] = 69 / 10
    ∧ (∀ p, (process_data initState (String.toList "6.90pH") 0 "t" "" "run" true).1.fs p
      = none)
    ∧ (process_data initState (String.toList "6.90pH") 0 "t" "" "run" true).2
      = some PyErr.typeError := by
  have hn1 : natOfDigits ['6'] = 6 := rfl
  have hn2 : natOfDigits ['9', '0'] = 90 := rfl
  refine ⟨rfl, ?_, fun p => rfl, rfl⟩
  rw [parseDec, hn1, hn2]
  norm_num

/-- C2: on a line whose text contains a substring matching the pattern
(\d+\.\d+)pH, one loop iteration of the worker emits exactly one event
carrying the line and the elapsed time (t - t0) / 60, and processing
that event appends exactly one row whose pH value is the decimal parsed
from the matched group; on a line with no such substring the iteration
emits nothing. -/
theorem c2_line_parsing (t0 t : ℚ) (line : List Char) :
    (∀ g, reSearchPH line = some g →
      workerStep t0 line t = some (line, (t - t0) / 60)
      ∧ ∀ st now dir fname w,
        (process_data st line ((t - t0) / 60) now dir fname w).1.data
          = st.data ++ [⟨now, (t - t0) / 60, parseDec g.1 g.2⟩])
    ∧ (reSearchPH line = none → workerStep t0 line t = none) := by
  constructor
  · intro g hg
    constructor
    · simp only [workerStep, hg]
    · intro st now dir fname w
      simp only [process_data, hg]
      split
      · split
        · split
          · rfl
          · rfl
        · split
          · rfl
          · rfl
      · rfl
  · intro hg
    simp only [workerStep, hg]

/-- Closed instance of c2_line_parsing: the line 7.42pH read 30 seconds
after session start emits one event at elapsed 0.5 minutes, and
processing it appends the single row with pH value 7.42; the line
no reading emits nothing. -/
theorem c2_line_parsing_witness :
    workerStep 0 (String.toList "7.42pH") 30 = some (String.toList "7.42pH", (30 - 0) / 60)
    ∧ (process_data initState (String.toList "7.42pH") ((30 - 0) / 60) "t" "" "" true).1.data
      = [{ timestamp := "t", elapsed := (30 - 0) / 60, ph := parseDec ['7'] ['4', '2'] }]
    ∧ workerStep 0 (String.toList "no reading") 30 = none := by
  refine ⟨((c2_line_parsing 0 30 (String.toList "7.42pH")).1 (['7'], ['4', '2']) rfl).1, ?_, ?_⟩
  · have h := ((c2_line_parsing 0 30 (String.toList "7.42pH")).1 (['7'], ['4', '2']) rfl).2
      initState "t" "" "" true
    simpa using h
  · exact (c2_line_parsing 0 30 (String.toList "no reading")).2 rfl

/-- Step lemma for the CSV invariant: when the target file already holds
the header followed by exactly the rows of the in-memory series,
processing one matching sample appends exactly the one new row to the
file and keeps it in sync with the series. -/
theorem process_data_csv_sync (dir fname : String) (hd : dir ≠ "") (hf : fname ≠ "")
    (st : AppState) (line : List Char) (e : ℚ) (now : String)
    (g : List Char × List Char) (hm : reSearchPH line = some g)
    (hinv : st.fs (csvPath dir fname) = some (CsvLine.header :: st.data.map CsvLine.row)) :
    (process_data st line e now dir fname true).1.fs (csvPath dir fname)
      = some (CsvLine.header :: (process_data st line e now dir fname true).1.data.map CsvLine.row)
    ∧ (process_data st line e now dir fname true).1.data
      = st.data ++ [⟨now, e, parseDec g.1 g.2⟩] := by
  simp only [process_data, hm]
  split
  · split
    · rename_i heq
      rw [hinv] at heq
      exact absurd heq (by simp)
    · rename_i content heq
      rw [hinv] at heq
      obtain rfl : CsvLine.header :: st.data.map CsvLine.row = content :=
        Option.some.inj heq
      constructor
      · simp [fsWrite]
      · rfl
  · rename_i hcond
    exact absurd ⟨hd, hf⟩ hcond

/-- Base lemma for the CSV invariant: when the target file does not
exist, processing one matching sample writes the header followed by the
whole updated in-memory series. -/
theorem process_data_csv_fresh (dir fname : String) (hd : dir ≠ "") (hf : fname ≠ "")
    (st : AppState) (line : List Char) (e : ℚ) (now : String)
    (g : List Char × List Char) (hm : reSearchPH line = some g)
    (h0 : st.fs (csvPath dir fname) = none) :
    (process_data st line e now dir fname true).1.fs (csvPath dir fname)
      = some (CsvLine.header :: (process_data st line e now dir fname true).1.data.map CsvLine.row)
    ∧ (process_data st line e now dir fname true).1.data
      = st.data ++ [⟨now, e, parseDec g.1 g.2⟩] := by
  simp only [process_data, hm]
  split
  · split
    · constructor
      · simp [fsWrite]
      · rfl
    · rename_i content heq
      rw [h0] at heq
      exact absurd heq (by simp)
  · rename_i hcond
    exact absurd ⟨hd, hf⟩ hcond

/-- Unfolding lemma: processing a sequence starting with one event is
processing the tail from the state the first call reached. -/
theorem processSeq_cons (dir fname : String) (st : AppState)
    (e : List Char × ℚ × String) (events : List (List Char × ℚ × String)) :
    processSeq dir fname st (e :: events)
      = processSeq dir fname (process_data st e.1 e.2.1 e.2.2 dir fname true).1 events := rfl

/-- Inductive propagation of the CSV invariant over a sequence of
matching sample events. -/
theorem processSeq_csv_sync (dir fname : String) (hd : dir ≠ "") (hf : fname ≠ "")
    (events : List (List Char × ℚ × String))
    (hm : ∀ e ∈ events, (reSearchPH e.1).isSome)
    (st : AppState)
    (hinv : st.fs (csvPath dir fname) = some (CsvLine.header :: st.data.map CsvLine.row)) :
    (processSeq dir fname st events).fs (csvPath dir fname)
      = some (CsvLine.header :: (processSeq dir fname st events).data.map CsvLine.row)
    ∧ (processSeq dir fname st events).data.length = st.data.length + events.length := by
  induction events generalizing st with
  | nil => exact ⟨hinv, rfl⟩
  | cons e rest ih =>
    obtain ⟨g, hg⟩ := Option.isSome_iff_exists.mp (hm e (List.mem_cons_self e rest))
    have h1 := process_data_csv_sync dir fname hd hf st e.1 e.2.1 e.2.2 g hg hinv
    have h2 := ih (fun x hx => hm x (List.mem_cons_of_mem e hx))
      (process_data st e.1 e.2.1 e.2.2 dir fname true).1 h1.1
    rw [processSeq_cons]
    refine ⟨h2.1, ?_⟩
    rw [h2.2, h1.2]
    simp only [List.length_append, List.length_cons, List.length_nil]
    omega

/-- A list of data-row lines contains no header line. -/
theorem filter_isHeader_map_row (l : List Row) :
    (l.map CsvLine.row).filter CsvLine.isHeader = [] := by
  induction l with
  | nil => rfl
  | cons a l ih => simp [List.filter_cons, CsvLine.isHeader, ih]

/-- Every line of a list of data-row lines is a non-header line. -/
theorem filter_not_isHeader_map_row (l : List Row) :
    (l.map CsvLine.row).filter (fun c => ! CsvLine.isHeader c) = l.map CsvLine.row := by
  induction l with
  | nil => rfl
  | cons a l ih => simp [List.filter_cons, CsvLine.isHeader, ih]

/-- A CSV file made of the header followed by data rows has exactly one
header line. -/
theorem filter_file_header (l : List Row) :
    ((CsvLine.header :: l.map CsvLine.row).filter CsvLine.isHeader).length = 1 := by
  simp [List.filter_cons, CsvLine.isHeader, filter_isHeader_map_row]

/-- A CSV file made of the header followed by data rows has exactly one
non-header line per data row. -/
theorem filter_file_rows (l : List Row) :
    ((CsvLine.header :: l.map CsvLine.row).filter (fun c => ! CsvLine.isHeader c)).length
      = l.length := by
  show ((l.map CsvLine.row).filter (fun c => ! CsvLine.isHeader c)).length = l.length
  rw [filter_not_isHeader_map_row, List.length_map]

/-- C3: starting from an empty in-memory series and a not-yet-existing
target file, with a configured binding, processing a nonempty sequence
of matching sample events leaves the target file holding exactly the
header followed by the rows of the final in-memory series: one header
line, one data line per processed sample, header first. -/
theorem c3_csv_file_contents (dir fname : String) (hd : dir ≠ "") (hf : fname ≠ "")
    (e0 : List Char × ℚ × String) (events : List (List Char × ℚ × String))
    (hm : ∀ e ∈ e0 :: events, (reSearchPH e.1).isSome)
    (st : AppState) (h0 : st.fs (csvPath dir fname) = none) (hdata : st.data = []) :
    (processSeq dir fname st (e0 :: events)).fs (csvPath dir fname)
      = some (CsvLine.header :: (processSeq dir fname st (e0 :: events)).data.map CsvLine.row)
    ∧ (processSeq dir fname st (e0 :: events)).data.length = events.length + 1
    ∧ ∀ file, (processSeq dir fname st (e0 :: events)).fs (csvPath dir fname) = some file →
        (file.filter CsvLine.isHeader).length = 1
        ∧ (file.filter (fun l => ! CsvLine.isHeader l)).length = events.length + 1
        ∧ file.head? = some CsvLine.header := by
  obtain ⟨g, hg⟩ := Option.isSome_iff_exists.mp (hm e0 (List.mem_cons_self e0 events))
  have h1 := process_data_csv_fresh dir fname hd hf st e0.1 e0.2.1 e0.2.2 g hg h0
  have h2 := processSeq_csv_sync dir fname hd hf events
    (fun x hx => hm x (List.mem_cons_of_mem e0 hx))
    (process_data st e0.1 e0.2.1 e0.2.2 dir fname true).1 h1.1
  have hlen : (processSeq dir fname st (e0 :: events)).data.length = events.length + 1 := by
    rw [processSeq_cons, h2.2, h1.2, hdata]
    simp [Nat.add_comm]
  have hfs : (processSeq dir fname st (e0 :: events)).fs (csvPath dir fname)
      = some (CsvLine.header :: (processSeq dir fname st (e0 :: events)).data.map CsvLine.row) := by
    rw [processSeq_cons]
    exact h2.1
  refine ⟨hfs, hlen, fun file hfile => ?_⟩
  rw [hfs] at hfile
  obtain rfl : CsvLine.header
      :: (processSeq dir fname st (e0 :: events)).data.map CsvLine.row = file :=
    Option.some.inj hfile
  refine ⟨?_, ?_, rfl⟩
  · exact filter_file_header _
  · rw [filter_file_rows]
    exact hlen

/-- Closed instance of c3_csv_file_contents: two samples into a fresh
file under out/run.csv leave the file with the header line followed by
the two data rows. -/
theorem c3_csv_file_contents_witness :
    (processSeq "out" "run" initState
        [(String.toList "7.00pH", 0, "t1"), (String.toList "7.10pH", 1, "t2")]).fs
        (csvPath "out" "run")
      = some (CsvLine.header :: (processSeq "out" "run" initState
        [(String.toList "7.00pH", 0, "t1"), (String.toList "7.10pH", 1, "t2")]).data.map
          CsvLine.row)
    ∧ (processSeq "out" "run" initState
        [(String.toList "7.00pH", 0, "t1"), (String.toList "7.10pH", 1, "t2")]).data.length
      = 2 := by
  have h := c3_csv_file_contents "out" "run" (by decide) (by decide)
    (String.toList "7.00pH", 0, "t1") [(String.toList "7.10pH", 1, "t2")]
    (by decide) initState rfl rfl
  exact ⟨h.1, h.2.1⟩

end PhLogger
